import Mathlib

/-!
Verification of the SoroScan ingestion pipeline specification against a
shallow Lean embedding of the Python source
(django-backend/soroscan/ingest: tasks.py, decoder.py, stellar_client.py,
models.py).

Python JSON-like values are embedded as the inductive type JVal below;
Python dictionaries appear as association lists in insertion order,
machine integers as unbounded Int (Python ints are unbounded), and the
float coercions performed by the condition evaluator as exact decimals
(the concrete numbers exercised by the spec are exactly representable).
Fallible Python code is embedded with Option / Except.
-/

/-- Embedding of the Python/JSON values flowing through the ingest
pipeline: None, bool, int, str, list, dict (as an association list in
insertion order). -/
inductive JVal where
  | null : JVal
  | b (b : Bool) : JVal
  | i (n : Int) : JVal
  | s (s : String) : JVal
  | arr (l : List JVal) : JVal
  | obj (l : List (String × JVal)) : JVal
deriving Repr

mutual

/-- Structural equality on embedded values, modelling Python equality
on JSON data (dict comparison here is order-sensitive on the
association list; the source only compares scalars this way). -/
def jvalBeq : JVal → JVal → Bool
  | .null, .null => true
  | .b a, .b c => a == c
  | .i a, .i c => a == c
  | .s a, .s c => a == c
  | .arr a, .arr c => jvalBeqList a c
  | .obj a, .obj c => jvalBeqObj a c
  | _, _ => false

/-- Elementwise equality for embedded lists. -/
def jvalBeqList : List JVal → List JVal → Bool
  | [], [] => true
  | x :: xs, y :: ys => jvalBeq x y && jvalBeqList xs ys
  | _, _ => false

/-- Elementwise equality for embedded dicts. -/
def jvalBeqObj : List (String × JVal) → List (String × JVal) → Bool
  | [], [] => true
  | (k, x) :: xs, (k', y) :: ys => k == k' && jvalBeq x y && jvalBeqObj xs ys
  | _, _ => false

end

instance : BEq JVal := ⟨jvalBeq⟩

/-- Identity test against None, modelling the Python idiom
"x is None" (an identity check, not structural equality). -/
def isNone : JVal → Bool
  | .null => true
  | _ => false

/-- Python truthiness of an embedded value (used for the idiom
"x or default" in the source). -/
def pyTruthy : JVal → Bool
  | .null => false
  | .b b => b
  | .i n => n != 0
  | .s s => s ≠ ""
  | .arr l => !l.isEmpty
  | .obj l => !l.isEmpty

mutual

/-- Python str() of an embedded value.  Scalars follow CPython exactly
(None ↦ "None", True ↦ "True"); containers follow the repr shape the
source never relies on for the verified claims. -/
def pyStr : JVal → String
  | .null => "None"
  | .b true => "True"
  | .b false => "False"
  | .i n => toString n
  | .s s => s
  | .arr l => "[" ++ pyStrList l ++ "]"
  | .obj l => "\x7b" ++ pyStrObj l ++ "\x7d"

/-- Comma-joined repr of list elements. -/
def pyStrList : List JVal → String
  | [] => ""
  | [x] => pyStrInner x
  | x :: xs => pyStrInner x ++ ", " ++ pyStrList xs

/-- Comma-joined repr of dict entries. -/
def pyStrObj : List (String × JVal) → String
  | [] => ""
  | [(k, v)] => "'" ++ k ++ "': " ++ pyStrInner v
  | (k, v) :: xs => "'" ++ k ++ "': " ++ pyStrInner v ++ ", " ++ pyStrObj xs

/-- Repr of a value nested inside a container (strings gain quotes). -/
def pyStrInner : JVal → String
  | .s s => "'" ++ s ++ "'"
  | v => pyStr v

end

/-- Value of a decimal digit string (already validated) as a Nat. -/
def digitsToNat (cs : List Char) : Nat :=
  cs.foldl (fun a c => a * 10 + (c.toNat - 48)) 0

/-- Whitespace stripped from both ends of a character list, modelling
str.strip() as performed implicitly by int()/float(). -/
def pyStrip (cs : List Char) : List Char :=
  ((cs.dropWhile Char.isWhitespace).reverse.dropWhile Char.isWhitespace).reverse

/-- Split of a character list at every occurrence of a separator
character, modelling str.split(sep) (always at least one segment). -/
def charSplit (sep : Char) : List Char → List (List Char)
  | [] => [[]]
  | c :: cs =>
      let rest := charSplit sep cs
      if c == sep then
        [] :: rest
      else
        match rest with
        | seg :: segs => (c :: seg) :: segs
        | [] => [[c]]

/-- Parse of an optionally signed decimal integer literal, modelling
Python int(str) on its accepting inputs (surrounding whitespace
stripped; anything else rejects). -/
def pyParseInt : String → Option Int :=
  fun s =>
    let cs := pyStrip s.toList
    let signed : Int × List Char :=
      match cs with
      | '-' :: r => (-1, r)
      | '+' :: r => (1, r)
      | r => (1, r)
    if signed.2 ≠ [] && signed.2.all Char.isDigit then
      some (signed.1 * (digitsToNat signed.2 : Int))
    else
      none

/-- Python int(value) on embedded values: ints pass through, booleans
coerce to 0/1, strings parse as integer literals, everything else
(None, lists, dicts) raises, embedded as none. -/
def pyInt : JVal → Option Int
  | .i n => some n
  | .b b => some (if b then 1 else 0)
  | .s s => pyParseInt s
  | _ => none

/-- Exact decimal representing a parsed Python float literal:
the value is mant / 10 ^ scale.  The concrete numbers the spec
exercises are exactly representable in binary floats as well, so the
exact comparison agrees with the float comparison there. -/
structure PyFloat where
  mant : Int
  scale : Nat
deriving Repr, DecidableEq

/-- Value order on parsed decimals by cross-multiplication. -/
def pyFloatLt (a b : PyFloat) : Bool :=
  a.mant * 10 ^ b.scale < b.mant * 10 ^ a.scale

/-- Value order (non-strict) on parsed decimals. -/
def pyFloatLe (a b : PyFloat) : Bool :=
  a.mant * 10 ^ b.scale ≤ b.mant * 10 ^ a.scale

/-- Parse of an optionally signed decimal number with optional
fractional part, modelling Python float(str) on the literals the
pipeline feeds it. -/
def pyParseFloat : String → Option PyFloat :=
  fun s =>
    let cs := pyStrip s.toList
    let signed : Int × List Char :=
      match cs with
      | '-' :: r => (-1, r)
      | '+' :: r => (1, r)
      | r => (1, r)
    let ip := signed.2.takeWhile Char.isDigit
    let rest := signed.2.dropWhile Char.isDigit
    match rest with
    | [] =>
        if ip ≠ [] then
          some ⟨signed.1 * (digitsToNat ip : Int), 0⟩
        else
          none
    | '.' :: frac =>
        if frac.all Char.isDigit && (ip ≠ [] || frac ≠ []) then
          some ⟨signed.1 *
            ((digitsToNat ip : Int) * 10 ^ frac.length + (digitsToNat frac : Int)),
            frac.length⟩
        else
          none
    | _ => none

/-- Lookup of a key in an embedded dict, modelling dict.get(key):
absent keys give None. -/
def jvalGet (v : JVal) (key : String) : JVal :=
  match v with
  | .obj l =>
      match l.find? (fun kv => kv.1 == key) with
      | some kv => kv.2
      | none => .null
  | _ => .null

/-- Traverse of a dot-separated path through nested embedded dicts,
modelling _get_field in tasks.py: a non-dict met before the path is
exhausted yields None, as does a missing key. -/
def getFieldAux : JVal → List String → JVal
  | cur, [] => cur
  | cur, p :: ps =>
      match cur with
      | .obj l => getFieldAux (jvalGet (.obj l) p) ps
      | _ => .null

/-- Dot-path field resolution over event data (_get_field). -/
def getField (data : JVal) (path : String) : JVal :=
  getFieldAux data ((charSplit '.' path.toList).map (fun cs => String.mk cs))

/-- Embedding of the duck-typed SDK/dict event objects consumed by the
ingest tasks.  Each attribute the source probes with _event_attr is an
Option JVal: none models an absent attribute, some JVal.null an
attribute present with value None (the two behave differently in
_event_attr's chain). -/
structure RawEvent where
  event_index : Option JVal := none
  index : Option JVal := none
  id : Option JVal := none
  paging_token : Option JVal := none
  ledger : Option JVal := none
  ledger_sequence : Option JVal := none
  tx_hash : Option JVal := none
  transaction_hash : Option JVal := none
  type : Option JVal := none
  event_type : Option JVal := none
  value : Option JVal := none
  payload : Option JVal := none
  xdr : Option JVal := none
  raw_xdr : Option JVal := none
  timestamp : Option JVal := none

/-- First present attribute in a probe chain, modelling _event_attr:
the first name the object has wins, even when its value is None. -/
def eventAttr (attrs : List (Option JVal)) (default : JVal) : JVal :=
  match attrs with
  | [] => default
  | some v :: _ => v
  | none :: rest => eventAttr rest default

/-- Coercion to int with a default, modelling _safe_int. -/
def safe_int (v : JVal) (default : Int) : Int :=
  (pyInt v).getD default

/-- Explicit-index probe of _extract_event_index: the first of the
attributes event_index, index that the object carries. -/
def directIndex (e : RawEvent) : JVal :=
  eventAttr [e.event_index, e.index] .null

/-- Opaque identifier the suffix strategy parses, modelling
str(_event_attr(event, "id", "paging_token", default="") or ""). -/
def identifierOf (e : RawEvent) : String :=
  let v := eventAttr [e.id, e.paging_token] (.s "")
  pyStr (if pyTruthy v then v else .s "")

/-- Trailing-numeric-suffix strategy of _extract_event_index: when the
identifier contains a dash and the text after the last dash is all
digits, that number is the index. -/
def suffixIndex (identifier : String) : Option Int :=
  let parts := charSplit '-' identifier.toList
  if parts.length ≥ 2 then
    let maybe := parts.getLastD []
    if maybe ≠ [] && maybe.all Char.isDigit then
      some (digitsToNat maybe : Int)
    else
      none
  else
    none

/-- Embedding of _extract_event_index (tasks.py lines 107-118). -/
def extract_event_index (e : RawEvent) (fallback_index : Int) : Int :=
  let direct := directIndex e
  if isNone direct then
    match suffixIndex (identifierOf e) with
    | some n => n
    | none => fallback_index
  else
    safe_int direct fallback_index

/-- The isNone test agrees with propositional equality to null. -/
theorem isNone_iff (v : JVal) : isNone v = true ↔ v = JVal.null := by
  cases v <;> simp [isNone]

/-- Claim C9: the event index is derived by an ordered chain of
strategies, first non-null result wins: the explicit index attribute
when present (coerced with safe_int, whose own fallback is the
counter), otherwise the trailing numeric suffix of the opaque
identifier, otherwise the caller-supplied positional counter. -/
theorem C9_event_index_fallback_chain (e : RawEvent) (fb : Int) :
    (directIndex e ≠ JVal.null →
        extract_event_index e fb = safe_int (directIndex e) fb)
    ∧ (directIndex e = JVal.null →
        ∀ n, suffixIndex (identifierOf e) = some n →
          extract_event_index e fb = n)
    ∧ (directIndex e = JVal.null →
        suffixIndex (identifierOf e) = none →
          extract_event_index e fb = fb) := by
  refine ⟨?_, ?_, ?_⟩
  · intro h
    have hb : isNone (directIndex e) = false := by
      cases hx : isNone (directIndex e)
      · rfl
      · exact absurd ((isNone_iff _).mp hx) h
    simp [extract_event_index, hb]
  · intro h n hs
    have hb : isNone (directIndex e) = true := (isNone_iff _).mpr h
    simp [extract_event_index, hb, hs]
  · intro h hs
    have hb : isNone (directIndex e) = true := (isNone_iff _).mpr h
    simp [extract_event_index, hb, hs]

/-- Concrete instantiation of the C9 chain: an explicit index 7 wins
over an identifier suffix; with the explicit attribute absent the
suffix of "0005-12" gives 12; with neither, the counter 3 is used. -/
theorem C9_event_index_fallback_chain_witness :
    extract_event_index
        { event_index := some (.i 7), id := some (.s "0005-12") } 3 = 7
    ∧ extract_event_index { id := some (.s "0005-12") } 3 = 12
    ∧ extract_event_index { id := some (.s "opaque") } 3 = 3 := by
  refine ⟨?_, ?_, ?_⟩
  · have h := (C9_event_index_fallback_chain
        { event_index := some (.i 7), id := some (.s "0005-12") } 3).1
        (by simp [directIndex, eventAttr])
    simpa [directIndex, eventAttr, safe_int, pyInt] using h
  · have hid : identifierOf { id := some (.s "0005-12") } = "0005-12" := by
      simp [identifierOf, eventAttr, pyTruthy, pyStr]
    have h := (C9_event_index_fallback_chain { id := some (.s "0005-12") } 3).2.1
        (by simp [directIndex, eventAttr]) 12 (by rw [hid]; decide)
    simpa using h
  · have hid : identifierOf { id := some (.s "opaque") } = "opaque" := by
      simp [identifierOf, eventAttr, pyTruthy, pyStr]
    have h := (C9_event_index_fallback_chain { id := some (.s "opaque") } 3).2.2
        (by simp [directIndex, eventAttr]) (by rw [hid]; decide)
    simpa using h

/-- Row of the ContractEvent table (models.py).  The table carries the
unique constraint unique_contract_ledger_event_index on
(contract, ledger, event_index); event_index defaults to 0 when an
insert does not set it.  The ABI-decoding side effects that fire on
creation only touch decoded_payload / decoding_status and are settled
separately (claims C4, C5). -/
structure EventRow where
  contract : String
  ledger : Int
  event_index : Int
  tx_hash : String
  event_type : String
  payload : JVal
  raw_xdr : String
  timestamp : Int
  validation_status : String := "passed"
  schema_version : Option Int := none
  decoded_payload : JVal := .null
  decoding_status : String := "no_abi"
deriving Repr

/-- Python str(v or default) as used for the string fields extracted
in _upsert_contract_event. -/
def pyStrOr (v : JVal) (d : JVal) : String :=
  pyStr (if pyTruthy v then v else d)

/-- Ledger extracted by _upsert_contract_event:
_safe_int(_event_attr(event, "ledger", "ledger_sequence"), default=0). -/
def upsertLedger (e : RawEvent) : Int :=
  safe_int (eventAttr [e.ledger, e.ledger_sequence] .null) 0

/-- Transaction hash extracted by _upsert_contract_event. -/
def upsertTxHash (e : RawEvent) : String :=
  pyStrOr (eventAttr [e.tx_hash, e.transaction_hash] (.s "")) (.s "")

/-- Event type extracted by _upsert_contract_event. -/
def upsertEventType (e : RawEvent) : String :=
  pyStrOr (eventAttr [e.type, e.event_type] (.s "unknown")) (.s "unknown")

/-- Payload extracted by _upsert_contract_event:
_event_attr(event, "value", "payload", default={}) or {}. -/
def upsertPayload (e : RawEvent) : JVal :=
  let v := eventAttr [e.value, e.payload] (.obj [])
  if pyTruthy v then v else .obj []

/-- Raw XDR extracted by _upsert_contract_event. -/
def upsertRawXdr (e : RawEvent) : String :=
  pyStrOr (eventAttr [e.xdr, e.raw_xdr] (.s "")) (.s "")

/-- Timestamp extracted by _upsert_contract_event: the timestamp
attribute when it is a datetime (embedded as JVal.i), otherwise the
current time supplied by the caller (timezone.now()). -/
def upsertTimestamp (e : RawEvent) (now : Int) : Int :=
  match eventAttr [e.timestamp] (.i now) with
  | .i t => t
  | _ => now

/-- Natural-key match on (contract, ledger, event_index), the lookup
key of ContractEvent.objects.update_or_create in
_upsert_contract_event and the field set of the unique constraint. -/
def eventKeyMatch (r : EventRow) (c : String) (l idx : Int) : Bool :=
  r.contract == c && r.ledger == l && r.event_index == idx

/-- Embedding of _upsert_contract_event (tasks.py lines 121-167) over
an explicit table state: update_or_create keyed on
(contract, ledger, event_index); a hit updates the mutable fields and
reports created=false, a miss inserts a fresh row and reports
created=true. -/
def upsert_contract_event (db : List EventRow) (c : String) (e : RawEvent)
    (fallback_event_index : Int) (now : Int) : List EventRow × Bool :=
  let ledger := upsertLedger e
  let idx := extract_event_index e fallback_event_index
  match db.find? (fun r => eventKeyMatch r c ledger idx) with
  | some _ =>
      (db.map (fun r =>
        if eventKeyMatch r c ledger idx then
          { r with
              tx_hash := upsertTxHash e
              event_type := upsertEventType e
              payload := upsertPayload e
              timestamp := upsertTimestamp e now
              raw_xdr := upsertRawXdr e }
        else r), false)
  | none =>
      (db ++ [{ contract := c
                ledger := ledger
                event_index := idx
                tx_hash := upsertTxHash e
                event_type := upsertEventType e
                payload := upsertPayload e
                timestamp := upsertTimestamp e now
                raw_xdr := upsertRawXdr e }], true)

/-- Event object shape consumed by sync_events_from_horizon: the SDK
response events expose these attributes directly. -/
structure HorizonEvent where
  contract_id : String
  ledger : Int
  tx_hash : String
  type : String
  value : JVal
  xdr : Option String := none

/-- Lookup key used by the live-sync path: get_or_create matches on
(tx_hash, ledger, event_type) — not on the natural key. -/
def syncKeyMatch (r : EventRow) (tx : String) (l : Int) (ty : String) : Bool :=
  r.tx_hash == tx && r.ledger == l && r.event_type == ty

/-- Embedding of the per-event persistence step of
sync_events_from_horizon (tasks.py lines 611-631):
ContractEvent.objects.get_or_create keyed on
(tx_hash, ledger, event_type) with the remaining columns as insert
defaults (event_index is not among them, so an insert takes the model
default 0), followed by the refresh of the validation fields on an
existing row.  An insert whose (contract, ledger, event_index) is
already taken violates unique_contract_ledger_event_index and raises
IntegrityError, embedded as Except.error. -/
def sync_store_event (db : List EventRow) (c : String) (e : HorizonEvent)
    (validation_status : String) (schema_version : Option Int) (now : Int) :
    Except Unit (List EventRow × Bool) :=
  match db.find? (fun r => syncKeyMatch r e.tx_hash e.ledger e.type) with
  | some _ =>
      Except.ok
        (db.map (fun r =>
          if syncKeyMatch r e.tx_hash e.ledger e.type then
            { r with
                validation_status := validation_status
                schema_version := schema_version }
          else r), false)
  | none =>
      if db.any (fun r => eventKeyMatch r c e.ledger 0) then
        Except.error ()
      else
        Except.ok
          (db ++ [{ contract := c
                    ledger := e.ledger
                    event_index := 0
                    tx_hash := e.tx_hash
                    event_type := e.type
                    payload := e.value
                    raw_xdr := e.xdr.getD ""
                    timestamp := now
                    validation_status := validation_status
                    schema_version := schema_version }], true)

/-- Table state for the C1 scenario: one event row already ingested
with natural key (contract "C1", ledger 100, event_index 0) and
transaction hash "tx1". -/
def C1db : List EventRow :=
  [{ contract := "C1", ledger := 100, event_index := 0, tx_hash := "tx1",
     event_type := "transfer", payload := .obj [("amount", .i 1)],
     raw_xdr := "", timestamp := 0 }]

/-- Re-observation of the same natural key with a different
transaction hash, as seen by the backfill upsert path. -/
def C1ev2 : RawEvent :=
  { ledger := some (.i 100), event_index := some (.i 0),
    tx_hash := some (.s "tx2"), type := some (.s "transfer"),
    value := some (.obj [("amount", .i 1)]) }

/-- The same re-observation as seen by the live-sync path. -/
def C1hev2 : HorizonEvent :=
  { contract_id := "C1", ledger := 100, tx_hash := "tx2",
    type := "transfer", value := .obj [("amount", .i 1)] }

/-- Claim C1 (code bug).  On the backfill path the upsert keyed on
(contract, ledger, event_index) behaves as the invariant demands:
re-observing the key updates in place, reports created=false, and the
table keeps exactly one row.  The live-sync path however keys its
get_or_create on (tx_hash, ledger, event_type): re-observing the same
natural key with a different transaction hash misses that lookup and
attempts a fresh insert with default event_index 0, which collides
with the unique constraint unique_contract_ledger_event_index
(IntegrityError, embedded as Except.error) instead of updating the
existing row and reporting created=false. -/
theorem C1_unique_key_not_upheld_by_live_sync :
    (upsert_contract_event C1db "C1" C1ev2 0 0).2 = false
    ∧ (upsert_contract_event C1db "C1" C1ev2 0 0).1.length = 1
    ∧ sync_store_event C1db "C1" C1hev2 "passed" none 0 = Except.error () := by
  refine ⟨by decide, by decide, rfl⟩

/-- Ledger window size used by the backfill loop (tasks.py line 27). -/
def BATCH_LEDGER_SIZE : Int := 200

/-- Window list of the backfill loop, modelling
range(next_ledger, end_ledger + 1, BATCH_LEDGER_SIZE) paired with
batch_end = min(batch_start + BATCH_LEDGER_SIZE - 1, end_ledger). -/
def backfillWindows (s e : Int) : List (Int × Int) :=
  if s ≤ e then
    (s, min (s + (BATCH_LEDGER_SIZE - 1)) e) ::
      backfillWindows (s + BATCH_LEDGER_SIZE) e
  else
    []
termination_by (e + 1 - s).toNat
decreasing_by
  simp only [BATCH_LEDGER_SIZE]
  omega

/-- Accumulated outcome of one backfill task run: the table state, the
contract cursor, and the counters the task reports. -/
structure BackfillOutcome where
  db : List EventRow
  last_indexed_ledger : Option Int
  fetch_calls : Nat
  processed_events : Nat
  created_events : Nat
  updated_events : Nat

/-- Upsert of one fetched batch, modelling the inner
for fallback_event_index, event in enumerate(batch_events) loop. -/
def processBatch (c : String) (now : Int) (st : BackfillOutcome)
    (events : List RawEvent) : BackfillOutcome :=
  events.enum.foldl
    (fun acc p =>
      let r := upsert_contract_event acc.db c p.2 (p.1 : Int) now
      { acc with
          db := r.1
          processed_events := acc.processed_events + 1
          created_events := acc.created_events + (if r.2 then 1 else 0)
          updated_events := acc.updated_events + (if r.2 then 0 else 1) })
    st

/-- Sequential processing of the backfill windows: each window fetches
once, upserts every event of the batch, then persists
last_indexed_ledger = batch_end. -/
def runWindows (c : String) (fetch : Int → Int → List RawEvent) (now : Int) :
    BackfillOutcome → List (Int × Int) → BackfillOutcome
  | st, [] => st
  | st, (bs, be) :: ws =>
      let fetched := { st with fetch_calls := st.fetch_calls + 1 }
      let done := processBatch c now fetched (fetch bs be)
      runWindows c fetch now { done with last_indexed_ledger := some be } ws

/-- Resume point of a backfill: max(requested_start,
last_indexed_ledger + 1) when a cursor exists, else the requested
start (tasks.py lines 703-705). -/
def backfillStart (s : Int) (lil : Option Int) : Int :=
  match lil with
  | some l => max s (l + 1)
  | none => s

/-- Embedding of backfill_contract_events (tasks.py lines 679-757)
over an explicit table and cursor state, with the upstream RPC client
supplied as the fetch function.  Invalid ranges are rejected before
any work (ValueError, embedded as Except.error). -/
def backfill_contract_events (db : List EventRow) (lil : Option Int)
    (c : String) (fetch : Int → Int → List RawEvent)
    (from_ledger to_ledger : Int) (now : Int) :
    Except String BackfillOutcome :=
  if from_ledger ≤ 0 || to_ledger ≤ 0 || from_ledger > to_ledger then
    Except.error "Invalid ledger range provided"
  else
    Except.ok (runWindows c fetch now
      { db := db, last_indexed_ledger := lil, fetch_calls := 0,
        processed_events := 0, created_events := 0, updated_events := 0 }
      (backfillWindows (backfillStart from_ledger lil) to_ledger))

/-- Unfolding of a nonempty window list: the first window starts at s
and ends at min (s + 199) e. -/
theorem backfillWindows_pos (s e : Int) (h : s ≤ e) :
    backfillWindows s e =
      (s, min (s + 199) e) :: backfillWindows (s + 200) e := by
  rw [backfillWindows]
  simp [BATCH_LEDGER_SIZE, h]

/-- An exhausted range yields no windows. -/
theorem backfillWindows_neg (s e : Int) (h : e < s) :
    backfillWindows s e = [] := by
  rw [backfillWindows]
  simp [BATCH_LEDGER_SIZE]
  omega

/-- Window count over a fuelled induction: a nonempty range of n
ledgers needs exactly (n - 1) / 200 + 1 windows. -/
theorem backfillWindows_length_aux (n : Nat) :
    ∀ s e : Int, (e + 1 - s).toNat ≤ n → s ≤ e →
      (backfillWindows s e).length = (e - s).toNat / 200 + 1 := by
  induction n with
  | zero =>
      intro s e h1 h2
      omega
  | succ n ih =>
      intro s e h1 h2
      rw [backfillWindows_pos s e h2]
      by_cases h3 : s + 200 ≤ e
      · rw [List.length_cons, ih (s + 200) e (by omega) h3]
        omega
      · rw [backfillWindows_neg (s + 200) e (by omega)]
        simp
        omega

/-- Window count of a backfill over the nonempty range [s, e]. -/
theorem backfillWindows_length (s e : Int) (h : s ≤ e) :
    (backfillWindows s e).length = (e - s).toNat / 200 + 1 :=
  backfillWindows_length_aux (e + 1 - s).toNat s e le_rfl h

/-- The last window of a nonempty range always ends exactly at e. -/
theorem backfillWindows_last_aux (n : Nat) :
    ∀ s e : Int, (e + 1 - s).toNat ≤ n → s ≤ e →
      ∀ d : Int × Int, ((backfillWindows s e).getLastD d).2 = e := by
  induction n with
  | zero =>
      intro s e h1 h2
      exact absurd h1 (by omega)
  | succ n ih =>
      intro s e h1 h2 d
      rw [backfillWindows_pos s e h2]
      by_cases h3 : s + 200 ≤ e
      · rw [List.getLastD_cons]
        exact ih (s + 200) e (by omega) h3 _
      · rw [backfillWindows_neg (s + 200) e (by omega)]
        simp
        omega

/-- Closed form of the i-th backfill window: start s + 200 i, end
min (s + 200 i + 199) e — consecutive 200-ledger windows in strictly
increasing order, the last clipped to e. -/
theorem backfillWindows_get_aux (n : Nat) :
    ∀ s e : Int, (e + 1 - s).toNat ≤ n → ∀ i, i < (backfillWindows s e).length →
      (backfillWindows s e).get? i =
        some (s + 200 * i, min (s + 200 * i + 199) e) := by
  induction n with
  | zero =>
      intro s e h i hi
      rw [backfillWindows_neg s e (by omega)] at hi
      simp at hi
  | succ n ih =>
      intro s e h i hi
      by_cases h2 : s ≤ e
      · rw [backfillWindows_pos s e h2] at hi ⊢
        cases i with
        | zero => simp
        | succ j =>
            have hj : j < (backfillWindows (s + 200) e).length := by
              simpa using hi
            have harg : s + 200 + 200 * (j : Int) = s + 200 * ((j + 1 : Nat) : Int) := by
              push_cast
              ring
            have := ih (s + 200) e (by omega) j hj
            simpa [harg] using this
      · rw [backfillWindows_neg s e (by omega)] at hi
        simp at hi

/-- Upserting a batch never touches the fetch counter or the cursor. -/
theorem processBatch_preserves (c : String) (now : Int)
    (st : BackfillOutcome) (evs : List RawEvent) :
    (processBatch c now st evs).fetch_calls = st.fetch_calls
    ∧ (processBatch c now st evs).last_indexed_ledger = st.last_indexed_ledger := by
  unfold processBatch
  generalize evs.enum = l
  induction l generalizing st with
  | nil => exact ⟨rfl, rfl⟩
  | cons x xs ih =>
      rw [List.foldl_cons]
      exact ih _

/-- One upstream fetch happens per window. -/
theorem runWindows_fetch_calls (c : String) (f : Int → Int → List RawEvent)
    (now : Int) :
    ∀ ws st, (runWindows c f now st ws).fetch_calls = st.fetch_calls + ws.length := by
  intro ws
  induction ws with
  | nil => intro st; simp [runWindows]
  | cons w ws ih =>
      intro st
      cases w with
      | mk bs be =>
          rw [runWindows, ih]
          have hp := (processBatch_preserves c now
            { st with fetch_calls := st.fetch_calls + 1 } (f bs be)).1
          simp only [hp]
          simp
          omega

/-- After all windows run, the persisted cursor is the end of the last
window (or the incoming cursor when there is no window). -/
theorem runWindows_last_indexed (c : String) (f : Int → Int → List RawEvent)
    (now : Int) :
    ∀ ws st, (runWindows c f now st ws).last_indexed_ledger =
      (match ws.getLast? with
       | some w => some w.2
       | none => st.last_indexed_ledger) := by
  intro ws
  induction ws with
  | nil => intro st; rfl
  | cons w ws ih =>
      intro st
      cases w with
      | mk bs be =>
          rw [runWindows, ih]
          cases ws with
          | nil => rfl
          | cons w' ws' =>
              rcases hgl : (w' :: ws').getLast? with _ | x
              · simp [List.getLast?_cons] at hgl
              · simp only [hgl, List.getLast?_cons_cons]

/-- Structure of one backfill run over a valid range: the task
succeeds, fetches once per window, the windows are the consecutive
200-ledger slices from the resume point, and the cursor ends at the
range end (or stays put when the resume point is already past it). -/
theorem backfill_run_structure (db : List EventRow) (lil : Option Int)
    (c : String) (fetch : Int → Int → List RawEvent) (s e now : Int)
    (hs : 0 < s) (hse : s ≤ e) :
    ∃ out, backfill_contract_events db lil c fetch s e now = Except.ok out
      ∧ out.fetch_calls = (backfillWindows (backfillStart s lil) e).length
      ∧ (∀ i, i < (backfillWindows (backfillStart s lil) e).length →
          (backfillWindows (backfillStart s lil) e).get? i =
            some (backfillStart s lil + 200 * i,
                  min (backfillStart s lil + 200 * i + 199) e))
      ∧ (backfillStart s lil ≤ e →
          out.last_indexed_ledger = some e
          ∧ out.fetch_calls = (e - backfillStart s lil).toNat / 200 + 1)
      ∧ (e < backfillStart s lil →
          out.fetch_calls = 0 ∧ out.created_events = 0
          ∧ out.db = db ∧ out.last_indexed_ledger = lil) := by
  refine ⟨runWindows c fetch now
      { db := db, last_indexed_ledger := lil, fetch_calls := 0,
        processed_events := 0, created_events := 0, updated_events := 0 }
      (backfillWindows (backfillStart s lil) e), ?_, ?_, ?_, ?_, ?_⟩
  · unfold backfill_contract_events
    have h1 : ¬ (s ≤ 0) := by omega
    have h2 : ¬ (e ≤ 0) := by omega
    have h3 : ¬ (s > e) := by omega
    simp [h1, h2, h3]
  · rw [runWindows_fetch_calls]
    simp
  · intro i hi
    exact backfillWindows_get_aux (e + 1 - backfillStart s lil).toNat
      (backfillStart s lil) e le_rfl i hi
  · intro hle
    constructor
    · rw [runWindows_last_indexed]
      rcases hx : (backfillWindows (backfillStart s lil) e).getLast? with _ | x
      · rw [backfillWindows_pos _ _ hle] at hx
        simp [List.getLast?_cons] at hx
      · have h2 : x.2 = e := by
          have hgd := backfillWindows_last_aux
            (e + 1 - backfillStart s lil).toNat (backfillStart s lil) e
            le_rfl hle ((0 : Int), (0 : Int))
          rw [List.getLastD_eq_getLast?, hx] at hgd
          simpa using hgd
        simp [h2]
    · rw [runWindows_fetch_calls, backfillWindows_length _ _ hle]
      simp
  · intro hgt
    rw [backfillWindows_neg _ _ hgt]
    exact ⟨rfl, rfl, rfl, rfl⟩

/-- Claim C2: backfill over an inclusive range [s, e] starts at
max(requested_start, last_indexed_ledger + 1), proceeds in consecutive
200-ledger windows in strictly increasing order (window i covers
[start + 200 i, min (start + 200 i + 199) e]), fetches upstream once
per window, and ends with last_indexed_ledger = e; concretely, over
[1, 1000] with no prior cursor it makes exactly 5 fetch calls and ends
at cursor 1000, and an immediate re-run of the same range makes 0
fetch calls, creates 0 rows, and leaves the table unchanged. -/
theorem C2_backfill_windows_and_cursor :
    (∀ (db : List EventRow) (lil : Option Int) (c : String)
        (fetch : Int → Int → List RawEvent) (s e now : Int),
        0 < s → s ≤ e →
        ∃ out, backfill_contract_events db lil c fetch s e now = Except.ok out
          ∧ out.fetch_calls = (backfillWindows (backfillStart s lil) e).length
          ∧ (∀ i, i < (backfillWindows (backfillStart s lil) e).length →
              (backfillWindows (backfillStart s lil) e).get? i =
                some (backfillStart s lil + 200 * i,
                      min (backfillStart s lil + 200 * i + 199) e))
          ∧ (backfillStart s lil ≤ e →
              out.last_indexed_ledger = some e
              ∧ out.fetch_calls = (e - backfillStart s lil).toNat / 200 + 1)
          ∧ (e < backfillStart s lil →
              out.fetch_calls = 0 ∧ out.created_events = 0
              ∧ out.db = db ∧ out.last_indexed_ledger = lil))
    ∧ (∀ (db : List EventRow) (c : String)
        (fetch : Int → Int → List RawEvent) (now : Int),
        ∃ out, backfill_contract_events db none c fetch 1 1000 now = Except.ok out
          ∧ out.fetch_calls = 5 ∧ out.last_indexed_ledger = some 1000
          ∧ ∃ out2, backfill_contract_events out.db out.last_indexed_ledger c
                fetch 1 1000 now = Except.ok out2
              ∧ out2.fetch_calls = 0 ∧ out2.created_events = 0
              ∧ out2.db = out.db) := by
  constructor
  · intro db lil c fetch s e now hs hse
    exact backfill_run_structure db lil c fetch s e now hs hse
  · intro db c fetch now
    obtain ⟨out, hok, hlen, hget, hfull, hempty⟩ :=
      backfill_run_structure db none c fetch 1 1000 now (by norm_num) (by norm_num)
    have hstart : backfillStart 1 none = 1 := rfl
    have hf := hfull (by rw [hstart]; norm_num)
    have hcalls : out.fetch_calls = 5 := by
      rw [hf.2, hstart]
      decide
    refine ⟨out, hok, hcalls, hf.1, ?_⟩
    obtain ⟨out2, hok2, _, _, _, hemp2⟩ :=
      backfill_run_structure out.db (some 1000) c fetch 1 1000 now
        (by norm_num) (by norm_num)
    have hstart2 : backfillStart 1 (some 1000) = 1001 := rfl
    have he2 := hemp2 (by rw [hstart2]; norm_num)
    refine ⟨out2, ?_, he2.1, he2.2.1, he2.2.2.1⟩
    rw [hf.1]
    exact hok2

/-- Concrete instantiation of C2: a backfill of [1, 1000] from an
empty table with no cursor makes 5 fetch calls and ends at 1000. -/
theorem C2_backfill_windows_and_cursor_witness :
    ∃ out, backfill_contract_events [] none "C" (fun _ _ => []) 1 1000 0 =
        Except.ok out
      ∧ out.fetch_calls = 5 ∧ out.last_indexed_ledger = some 1000 := by
  obtain ⟨out, hok, hlen, hget, hfull, hempty⟩ :=
    C2_backfill_windows_and_cursor.1 [] none "C" (fun _ _ => []) 1 1000 0
      (by norm_num) (by norm_num)
  have hf := hfull (by show backfillStart 1 none ≤ 1000; decide)
  refine ⟨out, hok, ?_, hf.1⟩
  rw [hf.2]
  decide

/-- Retry limit of the dispatch_webhook task
(shared_task max_retries=5): the initial run plus up to 5 retries. -/
def MAX_RETRIES : Nat := 5

/-- Mutable state of a WebhookSubscription row touched by delivery
(models.py): active flag, lifecycle status, consecutive failure
counter, last successful delivery time. -/
structure Subscription where
  is_active : Bool := true
  status : String := "active"
  failure_count : Nat := 0
  last_triggered : Option Int := none
deriving Repr

/-- Outcome of one outbound POST: an HTTP status or a network-level
error (requests.RequestException). -/
inductive WebhookResponse where
  | http (code : Nat)
  | netError

/-- Success classification of dispatch_webhook: any 2xx status,
regardless of body; everything else (429 included) fails. -/
def responseSuccess : WebhookResponse → Bool
  | .http code => 200 ≤ code && code < 300
  | .netError => false

/-- Embedding of _on_delivery_failure (tasks.py lines 418-441):
increment failure_count; when the current run has exhausted the
retries (request.retries >= max_retries) also mark the subscription
suspended and inactive. -/
def on_delivery_failure (sub : Subscription) (retries : Nat) : Subscription :=
  let bumped := { sub with failure_count := sub.failure_count + 1 }
  if retries ≥ MAX_RETRIES then
    { bumped with status := "suspended", is_active := false }
  else
    bumped

/-- Guard of dispatch_webhook: the subscription is fetched with
is_active=True and status=active; otherwise the task skips with no
network call. -/
def canAttempt (sub : Subscription) : Bool :=
  sub.is_active && sub.status == "active"

/-- One execution of dispatch_webhook at a given retry count: skip if
the subscription is no longer deliverable, reset failure_count and
stamp last_triggered on a 2xx, otherwise apply the failure path. -/
def dispatch_webhook_attempt (sub : Subscription) (retries : Nat)
    (resp : WebhookResponse) (now : Int) : Subscription :=
  if canAttempt sub then
    if responseSuccess resp then
      { sub with failure_count := 0, last_triggered := some now }
    else
      on_delivery_failure sub retries
  else
    sub

/-- Celery-driven retry loop of dispatch_webhook: run the task,
and on failure retry with retries+1 until request.retries reaches
max_retries, where the exception propagates instead.  Returns the
final subscription state and the number of attempts performed.  The
fuel argument starts at MAX_RETRIES + 1 and strictly dominates the
remaining retries, so the zero-fuel branch is unreachable. -/
def dispatch_webhook_run_from (responses : Nat → WebhookResponse) (now : Int) :
    Nat → Subscription → Nat → Subscription × Nat
  | 0, sub, _ => (sub, 0)
  | fuel + 1, sub, retries =>
      if canAttempt sub then
        if responseSuccess (responses retries) then
          ({ sub with failure_count := 0, last_triggered := some now }, 1)
        else
          let failed := on_delivery_failure sub retries
          if retries ≥ MAX_RETRIES then
            (failed, 1)
          else
            let rest := dispatch_webhook_run_from responses now fuel failed (retries + 1)
            (rest.1, rest.2 + 1)
      else
        (sub, 0)

/-- Full delivery lifecycle for one (subscription, event): the initial
run at retries=0 plus the bounded retry chain. -/
def dispatch_webhook_run (responses : Nat → WebhookResponse) (now : Int)
    (sub : Subscription) : Subscription × Nat :=
  dispatch_webhook_run_from responses now (MAX_RETRIES + 1) sub 0

/-- State after n consecutive failing attempts (HTTP 500), the k-th
attempt running at request.retries = k - 1 as Celery numbers them. -/
def failStreak (sub : Subscription) : Nat → Subscription
  | 0 => sub
  | n + 1 => dispatch_webhook_attempt (failStreak sub n) n (.http 500) 0

/-- A fresh active subscription with no failures. -/
def freshSub : Subscription := {}

/-- The retry loop performs at most fuel attempts. -/
theorem dispatch_run_from_le (responses : Nat → WebhookResponse) (now : Int) :
    ∀ fuel (sub : Subscription) (retries : Nat),
      (dispatch_webhook_run_from responses now fuel sub retries).2 ≤ fuel := by
  intro fuel
  induction fuel with
  | zero =>
      intro sub r
      simp [dispatch_webhook_run_from]
  | succ f ih =>
      intro sub r
      simp only [dispatch_webhook_run_from]
      split
      · split
        · simp
        · split
          · simp
          · have h := ih (on_delivery_failure sub r) (r + 1)
            simp
            omega
      · simp

/-- After 5 consecutive failures an active subscription is still
active; the 6th failure suspends and deactivates it. -/
theorem failStreak_five_six (sub : Subscription) (ha : sub.is_active = true)
    (hs : sub.status = "active") :
    (failStreak sub 5).is_active = true ∧ (failStreak sub 5).status = "active"
    ∧ (failStreak sub 6).is_active = false
    ∧ (failStreak sub 6).status = "suspended" := by
  simp [failStreak, dispatch_webhook_attempt, canAttempt, on_delivery_failure,
        responseSuccess, MAX_RETRIES, ha, hs]

/-- A subscriber that never returns 2xx receives exactly 6 attempts,
after which the subscription is suspended and inactive. -/
theorem dispatch_run_allfail (responses : Nat → WebhookResponse) (now : Int)
    (sub : Subscription) (ha : sub.is_active = true)
    (hs : sub.status = "active")
    (hf : ∀ k, responseSuccess (responses k) = false) :
    (dispatch_webhook_run responses now sub).2 = 6
    ∧ (dispatch_webhook_run responses now sub).1.is_active = false
    ∧ (dispatch_webhook_run responses now sub).1.status = "suspended" := by
  simp [dispatch_webhook_run, dispatch_webhook_run_from, canAttempt,
        on_delivery_failure, MAX_RETRIES, ha, hs, hf]

/-- Claim C3 (counterexample): with max_retries=5 a permanently
failing subscriber receives 6 attempts, not at most 5, and after the
5th consecutive non-2xx response the subscription is still active and
not suspended — suspension only happens after the 6th attempt. -/
theorem C3_five_attempt_claim_false :
    (dispatch_webhook_run (fun _ => .http 500) 0 freshSub).2 = 6
    ∧ (failStreak freshSub 5).is_active = true
    ∧ (failStreak freshSub 5).status = "active" := by
  refine ⟨by decide, by decide, by decide⟩

/-- Claim C3 as amended: webhook delivery makes at most 6 attempts
total (the initial run plus 5 retries) per (subscription, event); an
active subscription receiving 6 consecutive non-2xx responses is
suspended and deactivated immediately after the 6th failed attempt,
while after exactly 5 consecutive failures it is still active. -/
theorem C3_six_attempt_suspension :
    (∀ (responses : Nat → WebhookResponse) (now : Int) (sub : Subscription),
        (dispatch_webhook_run responses now sub).2 ≤ 6)
    ∧ (∀ sub : Subscription, sub.is_active = true → sub.status = "active" →
        (failStreak sub 5).is_active = true
        ∧ (failStreak sub 5).status = "active"
        ∧ (failStreak sub 6).is_active = false
        ∧ (failStreak sub 6).status = "suspended")
    ∧ (∀ (responses : Nat → WebhookResponse) (now : Int) (sub : Subscription),
        sub.is_active = true → sub.status = "active" →
        (∀ k, responseSuccess (responses k) = false) →
        (dispatch_webhook_run responses now sub).2 = 6
        ∧ (dispatch_webhook_run responses now sub).1.is_active = false
        ∧ (dispatch_webhook_run responses now sub).1.status = "suspended") := by
  refine ⟨?_, ?_, ?_⟩
  · intro responses now sub
    exact dispatch_run_from_le responses now (MAX_RETRIES + 1) sub 0
  · intro sub ha hs
    exact failStreak_five_six sub ha hs
  · intro responses now sub ha hs hf
    exact dispatch_run_allfail responses now sub ha hs hf

/-- Concrete instantiation of the amended C3 behaviour on a fresh
subscription and a subscriber that always times out. -/
theorem C3_six_attempt_suspension_witness :
    (dispatch_webhook_run (fun _ => .netError) 0 freshSub).2 ≤ 6
    ∧ (failStreak freshSub 6).status = "suspended"
    ∧ (dispatch_webhook_run (fun _ => .netError) 0 freshSub).1.is_active = false := by
  refine ⟨C3_six_attempt_suspension.1 (fun _ => .netError) 0 freshSub,
    (C3_six_attempt_suspension.2.1 freshSub rfl rfl).2.2.2,
    (C3_six_attempt_suspension.2.2 (fun _ => .netError) 0 freshSub rfl rfl
      (fun _ => rfl)).2.1⟩

/-- Key order on JSON object entries (Python sorts keys by code-point
order, matched by the String order on Char data). -/
def keyLE (a b : String × JVal) : Prop := a.1 ≤ b.1

instance : DecidableRel keyLE := fun a b =>
  inferInstanceAs (Decidable (a.1 ≤ b.1))

instance : IsTotal (String × JVal) keyLE := ⟨fun a b => le_total a.1 b.1⟩

instance : IsTrans (String × JVal) keyLE := ⟨fun _ _ _ => le_trans⟩

/-- Key sort applied by json.dumps(..., sort_keys=True) at each
object level. -/
def sortByKey (l : List (String × JVal)) : List (String × JVal) :=
  List.insertionSort keyLE l

mutual

/-- Recursive key-sorting of every object in a value, the effect of
sort_keys=True. -/
def sortKeysJ : JVal → JVal
  | .null => .null
  | .b b => .b b
  | .i n => .i n
  | .s s => .s s
  | .arr l => .arr (sortKeysList l)
  | .obj l => .obj (sortByKey (sortKeysObj l))

/-- Key-sorting mapped over list elements. -/
def sortKeysList : List JVal → List JVal
  | [] => []
  | x :: xs => sortKeysJ x :: sortKeysList xs

/-- Key-sorting mapped over object entry values. -/
def sortKeysObj : List (String × JVal) → List (String × JVal)
  | [] => []
  | (k, v) :: xs => (k, sortKeysJ v) :: sortKeysObj xs

end

/-- JSON escaping of one character (quote and backslash; the control
and non-ASCII escapes of json.dumps are not exercised here). -/
def jsonEscapeChar (c : Char) : String :=
  if c == '"' then "\\\"" else if c == '\\' then "\\\\" else String.singleton c

/-- JSON string literal for s. -/
def jsonQuote (s : String) : String :=
  "\"" ++ String.join (s.toList.map jsonEscapeChar) ++ "\""

mutual

/-- Serialization of an already key-sorted value with json.dumps
default separators (", " and ": "). -/
def jsonDumpsRaw : JVal → String
  | .null => "null"
  | .b true => "true"
  | .b false => "false"
  | .i n => toString n
  | .s s => jsonQuote s
  | .arr l => "[" ++ jsonDumpsArr l ++ "]"
  | .obj l => "\x7b" ++ jsonDumpsObj l ++ "\x7d"

/-- Comma-joined serialization of array elements. -/
def jsonDumpsArr : List JVal → String
  | [] => ""
  | [x] => jsonDumpsRaw x
  | x :: xs => jsonDumpsRaw x ++ ", " ++ jsonDumpsArr xs

/-- Comma-joined serialization of object entries. -/
def jsonDumpsObj : List (String × JVal) → String
  | [] => ""
  | [(k, v)] => jsonQuote k ++ ": " ++ jsonDumpsRaw v
  | (k, v) :: xs => jsonQuote k ++ ": " ++ jsonDumpsRaw v ++ ", " ++ jsonDumpsObj xs

end

/-- Embedding of json.dumps(v, sort_keys=True): canonical
stable-key-order serialization. -/
def jsonDumps (v : JVal) : String :=
  jsonDumpsRaw (sortKeysJ v)

/-- The event_data dict built by dispatch_webhook (tasks.py lines
295-302), in source insertion order. -/
def webhookEventData (contract_id event_type : String) (payload : JVal)
    (ledger event_index : Int) (tx_hash : String) : JVal :=
  .obj [("contract_id", .s contract_id),
        ("event_type", .s event_type),
        ("payload", payload),
        ("ledger", .i ledger),
        ("event_index", .i event_index),
        ("tx_hash", .s tx_hash)]

/-- Outbound request assembled by dispatch_webhook. -/
structure WebhookRequest where
  target_url : String
  body : String
  headers : List (String × String)

/-- Embedding of the request-building section of dispatch_webhook
(tasks.py lines 295-314).  The HMAC-SHA256 hex digest primitive of
the standard library is supplied as the hmacHex parameter
(secret, message ↦ hex digest); the code contributes which inputs it
is fed and how the headers are assembled. -/
def dispatch_webhook_request (hmacHex : String → String → String)
    (secret target_url : String) (event_data : JVal) (ts : String) :
    WebhookRequest :=
  let payload_bytes := jsonDumps event_data
  let sig_hex := hmacHex secret payload_bytes
  { target_url := target_url
    body := payload_bytes
    headers := [("Content-Type", "application/json"),
                ("X-SoroScan-Signature", "sha256=" ++ sig_hex),
                ("X-SoroScan-Timestamp", ts)] }

/-- Concrete outbound request for the C6 scenario (the HMAC primitive
instantiated with an arbitrary digest constant — the header names do
not depend on it). -/
def C6req : WebhookRequest :=
  dispatch_webhook_request (fun _ _ => "0abc") "topsecret"
    "https://example.com/hook"
    (webhookEventData "C1" "transfer" (.obj []) 5 0 "deadbeef")
    "2024-01-01T00:00:00+00:00"

/-- Claim C6 (counterexample): the outbound webhook request carries no
header named X-Signature and none named X-Timestamp — the source names
them X-SoroScan-Signature and X-SoroScan-Timestamp. -/
theorem C6_header_names_wrong :
    C6req.headers.lookup "X-Signature" = none
    ∧ C6req.headers.lookup "X-Timestamp" = none := ⟨rfl, rfl⟩

/-- Claim C6 as amended: the POST body is the canonical
stable-key-order JSON of the six-field event dict, the header
X-SoroScan-Signature holds "sha256=" followed by the hex HMAC-SHA256
of that body keyed by the subscription secret, and X-SoroScan-Timestamp
holds the ISO8601 timestamp; key-sorting is genuinely canonical — at
every object level the serialized entries are a permutation of the
original entries in sorted key order. -/
theorem C6_signed_request_shape (hmacHex : String → String → String)
    (secret url ts contract_id event_type tx_hash : String)
    (payload : JVal) (ledger event_index : Int) :
    (dispatch_webhook_request hmacHex secret url
        (webhookEventData contract_id event_type payload ledger event_index tx_hash)
        ts).body
      = jsonDumps (webhookEventData contract_id event_type payload ledger
          event_index tx_hash)
    ∧ (dispatch_webhook_request hmacHex secret url
        (webhookEventData contract_id event_type payload ledger event_index tx_hash)
        ts).headers.lookup "X-SoroScan-Signature"
      = some ("sha256=" ++ hmacHex secret
          (jsonDumps (webhookEventData contract_id event_type payload ledger
            event_index tx_hash)))
    ∧ (dispatch_webhook_request hmacHex secret url
        (webhookEventData contract_id event_type payload ledger event_index tx_hash)
        ts).headers.lookup "X-SoroScan-Timestamp" = some ts
    ∧ (dispatch_webhook_request hmacHex secret url
        (webhookEventData contract_id event_type payload ledger event_index tx_hash)
        ts).headers.lookup "Content-Type" = some "application/json"
    ∧ (∀ l : List (String × JVal),
        List.Sorted keyLE (sortByKey l) ∧ List.Perm (sortByKey l) l) := by
  refine ⟨rfl, rfl, rfl, rfl, fun l => ⟨?_, ?_⟩⟩
  · exact List.sorted_insertionSort keyLE l
  · exact List.perm_insertionSort keyLE l

/-- ASCII lowercase of a string, modelling str.lower() as used by the
condition evaluator (op tags and contains comparisons are ASCII). -/
def pyLower (s : String) : String :=
  String.mk (s.toList.map Char.toLower)

/-- Prefix test on character lists, modelling str.startswith. -/
def strStartsWith : List Char → List Char → Bool
  | [], _ => true
  | _ :: _, [] => false
  | a :: as, b :: bs => a == b && strStartsWith as bs

/-- Substring test, modelling the Python "needle in haystack" string
operator (first argument the needle, second the haystack). -/
def strIn (needle : List Char) : List Char → Bool
  | [] => needle.isEmpty
  | h :: rest => strStartsWith needle (h :: rest) || strIn needle rest

/-- Condition AST of the alert rule engine: the op tag of a dict node
selects the node kind (logical tags case-insensitively at evaluation);
cmp carries the comparison op tag, the dotted field path, and the
literal value.  A missing sub-condition dict of a not-node is the
empty comparison (op "", evaluating false). -/
inductive Cond where
  | cnot (sub : Cond) : Cond
  | cand (conditions : List Cond) : Cond
  | cor (conditions : List Cond) : Cond
  | cmp (op : String) (field : String) (value : JVal) : Cond

/-- Comparison dispatch of evaluate_condition (tasks.py lines
800-823), taking the already-lowered op tag.  The numeric branch
models float(str(x)) as exact rational parsing — the spec's concrete
numbers are exactly representable — and falls back to false when
either side fails to coerce.  The in branch uses structural equality
on embedded values (Python cross-type numeric equality such as
True == 1 is not exercised by the pipeline). -/
def evalCmp (op field : String) (value : JVal) (data : JVal) : Bool :=
  let current := getField data field
  if op == "eq" then
    if !(isNone current) then pyStr current == pyStr value
    else "None" == pyStr value
  else if op == "neq" then
    pyStr current != pyStr value
  else if op == "gt" || op == "gte" || op == "lt" || op == "lte" then
    match pyParseFloat (pyStr current), pyParseFloat (pyStr value) with
    | some lhs, some rhs =>
        if op == "gt" then pyFloatLt rhs lhs
        else if op == "gte" then pyFloatLe rhs lhs
        else if op == "lt" then pyFloatLt lhs rhs
        else pyFloatLe lhs rhs
    | _, _ => false
  else if op == "contains" then
    if !(isNone current) then
      strIn (pyLower (pyStr value)).toList (pyLower (pyStr current)).toList
    else false
  else if op == "startswith" then
    if !(isNone current) then
      strStartsWith (pyStr value).toList (pyStr current).toList
    else false
  else if op == "in" then
    match value with
    | .arr l => l.any (fun x => jvalBeq current x)
    | _ => pyStr current == pyStr value
  else
    false

mutual

/-- Embedding of evaluate_condition (tasks.py lines 780-823): not
negates its sub-condition, and/or combine sub-results with
short-circuit all/any, everything else dispatches to the comparison
evaluator on the lowered op tag (unknown ops evaluate false). -/
def evaluate_condition : Cond → JVal → Bool
  | .cnot sub, d => !(evaluate_condition sub d)
  | .cand subs, d => evalAll subs d
  | .cor subs, d => evalAny subs d
  | .cmp op field value, d => evalCmp (pyLower op) field value d

/-- Short-circuit conjunction over sub-conditions (Python all over a
generator). -/
def evalAll : List Cond → JVal → Bool
  | [], _ => true
  | c :: cs, d => evaluate_condition c d && evalAll cs d

/-- Short-circuit disjunction over sub-conditions (Python any over a
generator). -/
def evalAny : List Cond → JVal → Bool
  | [], _ => false
  | c :: cs, d => evaluate_condition c d || evalAny cs d

end

/-- The condition of the C7 spec example. -/
def C7cond : Cond :=
  .cand [.cmp "eq" "type" (.s "transfer"), .cmp "gt" "payload.amount" (.s "100")]

/-- The event data of the C7 spec example with the given amount. -/
def C7data (amount : Int) : JVal :=
  .obj [("type", .s "transfer"), ("payload", .obj [("amount", .i amount)])]

/-- Claim C7: evaluate_condition gives standard short-circuit boolean
semantics to and/or/not; the numeric comparisons gt/gte/lt/lte
evaluate to false whenever either side fails float coercion; an
unrecognized operator evaluates to false; and the spec's example
condition evaluates true against amount 150 and false against
amount 50. -/
theorem C7_condition_evaluator :
    (∀ (c : Cond) (cs : List Cond) (d : JVal),
        evaluate_condition (.cand (c :: cs)) d
          = (evaluate_condition c d && evaluate_condition (.cand cs) d)
        ∧ evaluate_condition (.cor (c :: cs)) d
          = (evaluate_condition c d || evaluate_condition (.cor cs) d)
        ∧ evaluate_condition (.cand []) d = true
        ∧ evaluate_condition (.cor []) d = false
        ∧ evaluate_condition (.cnot c) d = !(evaluate_condition c d))
    ∧ (∀ (op field : String) (value data : JVal),
        (pyLower op = "gt" ∨ pyLower op = "gte"
          ∨ pyLower op = "lt" ∨ pyLower op = "lte") →
        (pyParseFloat (pyStr (getField data field)) = none
          ∨ pyParseFloat (pyStr value) = none) →
        evaluate_condition (.cmp op field value) data = false)
    ∧ (∀ (op field : String) (value data : JVal),
        pyLower op ∉ (["eq", "neq", "gt", "gte", "lt", "lte", "contains",
          "startswith", "in"] : List String) →
        evaluate_condition (.cmp op field value) data = false)
    ∧ evaluate_condition C7cond (C7data 150) = true
    ∧ evaluate_condition C7cond (C7data 50) = false := by
  refine ⟨?_, ?_, ?_, ?_, ?_⟩
  · intro c cs d
    refine ⟨?_, ?_, ?_, ?_, ?_⟩ <;> simp [evaluate_condition, evalAll, evalAny]
  · intro op field value data hop hpf
    rcases hp : pyParseFloat (pyStr (getField data field)) with _ | lhs <;>
      rcases hq : pyParseFloat (pyStr value) with _ | rhs <;>
      rcases hop with h | h | h | h <;>
      simp_all [evaluate_condition, evalCmp]
  · intro op field value data h
    simp only [List.mem_cons, List.not_mem_nil, or_false, not_or] at h
    obtain ⟨h1, h2, h3, h4, h5, h6, h7, h8, h9⟩ := h
    simp [evaluate_condition, evalCmp, h1, h2, h3, h4, h5, h6, h7, h8, h9]
  · have hty : getField (C7data 150) "type" = JVal.s "transfer" := rfl
    have ham : getField (C7data 150) "payload.amount" = JVal.i 150 := rfl
    have hop1 : pyLower "eq" = "eq" := by decide
    have hop2 : pyLower "gt" = "gt" := by decide
    simp [evaluate_condition, evalAll, C7cond, hop1, hop2, evalCmp, hty, ham,
          isNone, pyStr, show toString (150 : Int) = "150" from rfl]
    decide
  · have hty : getField (C7data 50) "type" = JVal.s "transfer" := rfl
    have ham : getField (C7data 50) "payload.amount" = JVal.i 50 := rfl
    have hop1 : pyLower "eq" = "eq" := by decide
    have hop2 : pyLower "gt" = "gt" := by decide
    simp [evaluate_condition, evalAll, C7cond, hop1, hop2, evalCmp, hty, ham,
          isNone, pyStr, show toString (50 : Int) = "50" from rfl]
    decide

/-- Concrete instantiation of C7's hypothesis-bearing clauses: a gt
comparison against a non-numeric literal evaluates false, and an
unknown operator evaluates false. -/
theorem C7_condition_evaluator_witness :
    evaluate_condition (.cmp "gt" "x" (.s "abc")) (.obj []) = false
    ∧ evaluate_condition (.cmp "frobnicate" "x" (.s "1")) (.obj []) = false := by
  constructor
  · exact C7_condition_evaluator.2.1 "gt" "x" (.s "abc") (.obj [])
      (Or.inl (by decide))
      (Or.inr (by simp [pyStr]; decide))
  · exact C7_condition_evaluator.2.2.1 "frobnicate" "x" (.s "1") (.obj [])
      (by decide)

/-- Per-contract cap on evaluated alert rules
(AlertRule.MAX_RULES_PER_CONTRACT, models.py). -/
def MAX_RULES_PER_CONTRACT : Nat := 100

/-- Alert rule row (models.py AlertRule): the fields the evaluation
path reads. -/
structure AlertRule where
  id : Nat
  contract : String
  is_active : Bool
  condition : Cond

/-- Stable evaluation order of alert rules: ascending primary key
(order_by id). -/
def ruleLE (a b : AlertRule) : Prop := a.id ≤ b.id

instance : DecidableRel ruleLE := fun a b =>
  inferInstanceAs (Decidable (a.id ≤ b.id))

instance : IsTotal AlertRule ruleLE := ⟨fun a b => Nat.le_total a.id b.id⟩

instance : IsTrans AlertRule ruleLE := ⟨fun _ _ _ => Nat.le_trans⟩

/-- Rule selection of evaluate_alert_rules (tasks.py lines 951-954):
active rules of the event's contract, in ascending id order, capped
at MAX_RULES_PER_CONTRACT. -/
def alertSelectedRules (rules : List AlertRule) (ev : EventRow) : List AlertRule :=
  (List.insertionSort ruleLE
      (rules.filter (fun r => r.contract == ev.contract && r.is_active))).take
    MAX_RULES_PER_CONTRACT

/-- Lookup structure built by evaluate_alert_rules (tasks.py lines
956-962): event_type, ledger, payload, and the raw payload again
under the decodedPayload key ("payload or {}" in both slots). -/
def alertEventData (ev : EventRow) : JVal :=
  .obj [("event_type", .s ev.event_type),
        ("ledger", .i ev.ledger),
        ("payload", if pyTruthy ev.payload then ev.payload else .obj []),
        ("decodedPayload", if pyTruthy ev.payload then ev.payload else .obj [])]

/-- Embedding of evaluate_alert_rules (tasks.py lines 937-979): count
of selected rules whose condition evaluates true against the
flattened event data. -/
def evaluate_alert_rules (rules : List AlertRule) (ev : EventRow) : Nat :=
  ((alertSelectedRules rules ev).filter
      (fun r => evaluate_condition r.condition (alertEventData ev))).length

/-- Modelled from the spec: the lookup structure the spec describes,
with the decodedPayload slot holding the event's ABI-decoded payload
(spec section 4.6, "Flattens event data (type, ledger, payload,
decoded payload)"), for comparison with the source behaviour. -/
def alertEventDataSpec (ev : EventRow) : JVal :=
  .obj [("event_type", .s ev.event_type),
        ("ledger", .i ev.ledger),
        ("payload", if pyTruthy ev.payload then ev.payload else .obj []),
        ("decodedPayload",
          if pyTruthy ev.decoded_payload then ev.decoded_payload else .obj [])]

/-- Modelled from the spec: rule evaluation against the spec's
flattening. -/
def evaluate_alert_rules_spec (rules : List AlertRule) (ev : EventRow) : Nat :=
  ((alertSelectedRules rules ev).filter
      (fun r => evaluate_condition r.condition (alertEventDataSpec ev))).length

/-- Event of the C8 scenario: raw payload amount 1, ABI-decoded
payload amount 2. -/
def C8ev : EventRow :=
  { contract := "C1", ledger := 7, event_index := 0, tx_hash := "tx",
    event_type := "transfer", payload := .obj [("amount", .i 1)],
    raw_xdr := "", timestamp := 0,
    decoded_payload := .obj [("amount", .i 2)], decoding_status := "success" }

/-- Active rule matching on the decoded amount via dot path. -/
def C8rule : AlertRule :=
  { id := 1, contract := "C1", is_active := true,
    condition := .cmp "eq" "decodedPayload.amount" (.s "2") }

/-- Claim C8 (counterexample): the code flattens the raw payload under
the decodedPayload key, not the event's decoded payload — a rule
matching decodedPayload.amount = 2 does not fire although the decoded
payload holds amount 2 (the spec's flattening would fire it). -/
theorem C8_decoded_payload_not_flattened :
    evaluate_alert_rules [C8rule] C8ev = 0
    ∧ evaluate_alert_rules_spec [C8rule] C8ev = 1 := by
  have hc : getField (alertEventData C8ev) "decodedPayload.amount" = JVal.i 1 := rfl
  have hs : getField (alertEventDataSpec C8ev) "decodedPayload.amount" = JVal.i 2 := rfl
  have hop : pyLower "eq" = "eq" := by decide
  have hsel : alertSelectedRules [C8rule] C8ev = [C8rule] := rfl
  constructor
  · have hcond : evaluate_condition C8rule.condition (alertEventData C8ev) = false := by
      show evaluate_condition (.cmp "eq" "decodedPayload.amount" (.s "2"))
          (alertEventData C8ev) = false
      simp [evaluate_condition, evalCmp, hop, hc, isNone, pyStr,
            show toString (1 : Int) = "1" from rfl]
    simp [evaluate_alert_rules, hsel, hcond]
  · have hcond : evaluate_condition C8rule.condition (alertEventDataSpec C8ev) = true := by
      show evaluate_condition (.cmp "eq" "decodedPayload.amount" (.s "2"))
          (alertEventDataSpec C8ev) = true
      simp [evaluate_condition, evalCmp, hop, hs, isNone, pyStr,
            show toString (2 : Int) = "2" from rfl]
    simp [evaluate_alert_rules_spec, hsel, hcond]

/-- Claim C8 as amended: evaluation loads only active rules of the
event's contract, at most MAX_RULES_PER_CONTRACT of them, in stable
ascending id order, flattens the event's type, ledger, and raw payload
(the raw payload again under the decodedPayload key — not the
ABI-decoded payload), and returns the number of selected rules whose
condition evaluates true against that structure. -/
theorem C8_alert_rule_evaluation :
    ∀ (rules : List AlertRule) (ev : EventRow),
      evaluate_alert_rules rules ev
        = ((alertSelectedRules rules ev).filter
            (fun r => evaluate_condition r.condition (alertEventData ev))).length
      ∧ evaluate_alert_rules rules ev ≤ MAX_RULES_PER_CONTRACT
      ∧ List.Sorted ruleLE (alertSelectedRules rules ev)
      ∧ (∀ r ∈ alertSelectedRules rules ev,
          r.is_active = true ∧ r.contract = ev.contract)
      ∧ jvalGet (alertEventData ev) "event_type" = .s ev.event_type
      ∧ jvalGet (alertEventData ev) "ledger" = .i ev.ledger
      ∧ jvalGet (alertEventData ev) "payload"
          = (if pyTruthy ev.payload then ev.payload else .obj [])
      ∧ jvalGet (alertEventData ev) "decodedPayload"
          = (if pyTruthy ev.payload then ev.payload else .obj []) := by
  intro rules ev
  refine ⟨rfl, ?_, ?_, ?_, rfl, rfl, rfl, rfl⟩
  · calc ((alertSelectedRules rules ev).filter
          (fun r => evaluate_condition r.condition (alertEventData ev))).length
        ≤ (alertSelectedRules rules ev).length := List.length_filter_le _ _
      _ ≤ MAX_RULES_PER_CONTRACT := by
          simp [alertSelectedRules, List.length_take_le]
  · exact List.Pairwise.sublist (List.take_sublist _ _)
      (List.sorted_insertionSort ruleLE _)
  · intro r hr
    have hmem : r ∈ List.insertionSort ruleLE
        (rules.filter (fun r => r.contract == ev.contract && r.is_active)) :=
      (List.take_sublist _ _).subset hr
    have hmem2 : r ∈ rules.filter (fun r => r.contract == ev.contract && r.is_active) :=
      (List.perm_insertionSort ruleLE _).subset hmem
    have hcond := (List.mem_filter.mp hmem2).2
    simp only [Bool.and_eq_true, beq_iff_eq] at hcond
    exact ⟨hcond.2, hcond.1⟩

/-- Concrete instantiation of C8's selection facts on a one-rule
table: the selected rule is active and belongs to the contract, and
the match count respects the cap. -/
theorem C8_alert_rule_evaluation_witness :
    C8rule.is_active = true ∧ C8rule.contract = C8ev.contract
    ∧ evaluate_alert_rules [C8rule] C8ev ≤ MAX_RULES_PER_CONTRACT := by
  have h := C8_alert_rule_evaluation [C8rule] C8ev
  have hm := h.2.2.2.1 C8rule
    (by show C8rule ∈ alertSelectedRules [C8rule] C8ev
        have hsel : alertSelectedRules [C8rule] C8ev = [C8rule] := rfl
        simp [hsel])
  exact ⟨hm.1, hm.2, h.2.1⟩

/-- Embedding of the stellar_sdk SCVal values the decoder
distinguishes: the vector shape that drives positional mapping, and
scalar shapes covering the typed conversions the model exercises
(the SDK carries more scalar kinds; they all flow through the same
hint-or-generic conversion below). -/
inductive SCVal where
  | vec (items : List SCVal) : SCVal
  | i32 (n : Int) : SCVal
  | u32 (n : Nat) : SCVal
  | sym (s : String) : SCVal
  | bool (b : Bool) : SCVal
deriving Repr

mutual

/-- Generic conversion scval.to_native, the fallback of
_decode_sc_val. -/
def scToNative : SCVal → JVal
  | .vec l => .arr (scToNativeList l)
  | .i32 n => .i n
  | .u32 n => .i n
  | .sym s => .s s
  | .bool b => .b b

/-- Generic conversion mapped over vector items. -/
def scToNativeList : List SCVal → List JVal
  | [] => []
  | x :: xs => scToNative x :: scToNativeList xs

end

/-- Embedding of _decode_sc_val (decoder.py lines 74-112): the ABI
type hint guides a typed conversion; a mismatched shape makes the
typed conversion raise, caught and replaced by the generic
scval.to_native conversion. -/
def decode_sc_val (sc_val_obj : SCVal) (type_hint : String) : JVal :=
  if type_hint == "I32" then
    match sc_val_obj with
    | .i32 n => .i n
    | v => scToNative v
  else if type_hint == "U32" then
    match sc_val_obj with
    | .u32 n => .i n
    | v => scToNative v
  else if type_hint == "Symbol" then
    match sc_val_obj with
    | .sym s => .s s
    | v => scToNative v
  else if type_hint == "Bool" then
    match sc_val_obj with
    | .bool b => .b b
    | v => scToNative v
  else
    scToNative sc_val_obj

/-- One field definition of an ABI event definition. -/
structure ABIField where
  name : String
  type : String

/-- One event definition of an uploaded ABI. -/
structure ABIEventDef where
  name : String
  fields : List ABIField

/-- Decoder failure: the raw binary was not parseable as XDR
(the stellar_sdk parse raised and decode_event_payload re-raises). -/
inductive DecodeError where
  | xdrParseError
deriving Repr, DecidableEq

/-- Positional mapping of the decoder's vector branch, modelling the
enumerate loop of decode_event_payload: field i takes element i of
the vector and fields past the vector length take null. -/
def decodeFieldsVec (i : Nat) (fields : List ABIField)
    (vec_items : List SCVal) : List (String × JVal) :=
  match fields with
  | [] => []
  | fd :: fds =>
      (match vec_items.get? i with
       | some item => (fd.name, decode_sc_val item fd.type)
       | none => (fd.name, JVal.null)) :: decodeFieldsVec (i + 1) fds vec_items

/-- Tests whether the parsed root is a vector. -/
def isVec : SCVal → Bool
  | .vec _ => true
  | _ => false

/-- Embedding of decode_event_payload (decoder.py lines 119-177).
The XDR parse outcome of stellar_xdr.SCVal.from_xdr(raw_xdr) is the
parsed argument (none models the parse raising).  No matching
definition gives ok none; a matching definition with an unparseable
binary re-raises (error); otherwise the result dict (as an
association list in field order) maps the vector positionally, or
decodes a lone field from the scalar root, or best-effort decodes the
first field from the scalar and nulls the rest. -/
def decode_event_payload (parsed : Option SCVal)
    (abi_json : List ABIEventDef) (event_type : String) :
    Except DecodeError (Option (List (String × JVal))) :=
  match abi_json.find? (fun e => e.name == event_type) with
  | none => Except.ok none
  | some event_def =>
      match parsed with
      | none => Except.error .xdrParseError
      | some sc_val_obj =>
          match event_def.fields with
          | [] => Except.ok (some [])
          | f :: rest =>
              match sc_val_obj with
              | .vec vec_items =>
                  Except.ok (some (decodeFieldsVec 0 (f :: rest) vec_items))
              | v =>
                  if rest.isEmpty then
                    Except.ok (some [(f.name, decode_sc_val v f.type)])
                  else
                    Except.ok (some ((f.name, decode_sc_val v f.type)
                      :: rest.map (fun fd => (fd.name, JVal.null))))

/-- Element j of the positional mapping pairs field j with vector
element i + j, or null past the vector's length. -/
theorem decodeFieldsVec_get? (vec_items : List SCVal) :
    ∀ (fields : List ABIField) (i j : Nat),
      (decodeFieldsVec i fields vec_items).get? j
        = (fields.get? j).map (fun fd =>
            match vec_items.get? (i + j) with
            | some item => (fd.name, decode_sc_val item fd.type)
            | none => (fd.name, JVal.null)) := by
  intro fields
  induction fields with
  | nil => intro i j; simp [decodeFieldsVec]
  | cons fd fds ih =>
      intro i j
      cases j with
      | zero => simp [decodeFieldsVec]
      | succ k =>
          simp only [decodeFieldsVec, List.get?_cons_succ]
          rw [ih (i + 1) k]
          have harg : i + 1 + k = i + (k + 1) := by omega
          rw [harg]

/-- A found definition never produces the ok-none result whatever the
parse outcome and root shape. -/
theorem decode_found_ne_ok_none (abi : List ABIEventDef) (et : String)
    (d : ABIEventDef) (parsed : Option SCVal)
    (hfind : abi.find? (fun e => e.name == et) = some d) :
    decode_event_payload parsed abi et ≠ Except.ok none := by
  obtain ⟨dn, dfields⟩ := d
  simp only [decode_event_payload, hfind]
  rcases parsed with _ | v
  · simp
  · rcases dfields with _ | ⟨f, rest⟩
    · simp
    · rcases v <;> intro h <;> dsimp only at h <;> first
        | (split at h <;> simp at h)
        | simp at h

/-- The ABI of the C4 spec example: event "transfer" with two I32
fields a, b. -/
def C4abi : List ABIEventDef :=
  [{ name := "transfer",
     fields := [{ name := "a", type := "I32" }, { name := "b", type := "I32" }] }]

/-- Claim C4: with a matching definition, a vector root maps element i
to field i and nulls every field past the vector length; a single
defined field decodes a scalar root directly; several defined fields
over a non-vector root decode only the first field and null the rest;
and the spec's 2-field example yields a=10, b=20 from [10, 20] and
a=10, b=null from [10]. -/
theorem C4_positional_field_mapping :
    (∀ (abi : List ABIEventDef) (et : String) (d : ABIEventDef)
        (items : List SCVal),
        abi.find? (fun e => e.name == et) = some d →
        decode_event_payload (some (.vec items)) abi et
          = Except.ok (some (decodeFieldsVec 0 d.fields items))
        ∧ ∀ j, (decodeFieldsVec 0 d.fields items).get? j
            = (d.fields.get? j).map (fun fd =>
                match items.get? j with
                | some item => (fd.name, decode_sc_val item fd.type)
                | none => (fd.name, JVal.null)))
    ∧ (∀ (abi : List ABIEventDef) (et : String) (d : ABIEventDef) (v : SCVal)
        (f : ABIField),
        abi.find? (fun e => e.name == et) = some d →
        isVec v = false → d.fields = [f] →
        decode_event_payload (some v) abi et
          = Except.ok (some [(f.name, decode_sc_val v f.type)]))
    ∧ (∀ (abi : List ABIEventDef) (et : String) (d : ABIEventDef) (v : SCVal)
        (f : ABIField) (rest : List ABIField),
        abi.find? (fun e => e.name == et) = some d →
        isVec v = false → d.fields = f :: rest → rest ≠ [] →
        decode_event_payload (some v) abi et
          = Except.ok (some ((f.name, decode_sc_val v f.type)
              :: rest.map (fun fd => (fd.name, JVal.null)))))
    ∧ decode_event_payload (some (.vec [.i32 10, .i32 20])) C4abi "transfer"
        = Except.ok (some [("a", .i 10), ("b", .i 20)])
    ∧ decode_event_payload (some (.vec [.i32 10])) C4abi "transfer"
        = Except.ok (some [("a", .i 10), ("b", .null)]) := by
  refine ⟨?_, ?_, ?_, rfl, rfl⟩
  · intro abi et d items hfind
    obtain ⟨dn, dfields⟩ := d
    constructor
    · simp only [decode_event_payload, hfind]
      rcases dfields with _ | ⟨f, rest⟩ <;> simp [decodeFieldsVec]
    · intro j
      have h := decodeFieldsVec_get? items dfields 0 j
      simpa using h
  · intro abi et d v f hfind hvec hf
    obtain ⟨dn, dfields⟩ := d
    simp only at hf
    subst hf
    simp only [decode_event_payload, hfind]
    rcases v <;> simp_all [isVec]
  · intro abi et d v f rest hfind hvec hf hrest
    obtain ⟨dn, dfields⟩ := d
    simp only at hf
    subst hf
    simp only [decode_event_payload, hfind]
    rcases v <;> simp_all [isVec, List.isEmpty_iff]

/-- Concrete instantiation of C4's hypothesis-bearing clauses: a lone
Symbol field decodes a scalar symbol root directly, and a 3-field
definition over a scalar root decodes only the first field. -/
theorem C4_positional_field_mapping_witness :
    decode_event_payload (some (.sym "hello"))
        [{ name := "t", fields := [{ name := "a", type := "Symbol" }] }] "t"
      = Except.ok (some [("a", .s "hello")])
    ∧ decode_event_payload (some (.i32 9))
        [{ name := "u", fields := [{ name := "a", type := "I32" },
            { name := "b", type := "I32" }, { name := "c", type := "I32" }] }] "u"
      = Except.ok (some [("a", .i 9), ("b", .null), ("c", .null)]) := by
  constructor
  · exact C4_positional_field_mapping.2.1
      [{ name := "t", fields := [{ name := "a", type := "Symbol" }] }] "t"
      { name := "t", fields := [{ name := "a", type := "Symbol" }] }
      (.sym "hello") { name := "a", type := "Symbol" } rfl rfl rfl
  · exact C4_positional_field_mapping.2.2.1
      [{ name := "u", fields := [{ name := "a", type := "I32" },
          { name := "b", type := "I32" }, { name := "c", type := "I32" }] }] "u"
      { name := "u", fields := [{ name := "a", type := "I32" },
          { name := "b", type := "I32" }, { name := "c", type := "I32" }] }
      (.i32 9) { name := "a", type := "I32" }
      [{ name := "b", type := "I32" }, { name := "c", type := "I32" }]
      rfl rfl rfl (by simp)

/-- ABI used by the C5 decode-error scenario. -/
def C5abi : List ABIEventDef :=
  [{ name := "transfer",
     fields := [{ name := "a", type := "I32" }] }]

/-- Claim C5: decode_event_payload answers ok none exactly when the
ABI holds no definition named event_type, whatever the parse outcome;
with a matching definition an unparseable binary raises the decode
error — an outcome distinct from the ok-none no-definition result. -/
theorem C5_none_iff_no_definition :
    ∀ (abi : List ABIEventDef) (et : String) (parsed : Option SCVal),
      (decode_event_payload parsed abi et = Except.ok none
        ↔ abi.find? (fun e => e.name == et) = none)
      ∧ (∀ d, abi.find? (fun e => e.name == et) = some d →
          decode_event_payload none abi et = Except.error .xdrParseError) := by
  intro abi et parsed
  constructor
  · cases hfind : abi.find? (fun e => e.name == et) with
    | none => simp [decode_event_payload, hfind]
    | some d =>
        constructor
        · intro h
          exact absurd h (decode_found_ne_ok_none abi et d parsed hfind)
        · intro h
          exact absurd h (by simp)
  · intro d hfind
    simp [decode_event_payload, hfind]

/-- Concrete instantiation of C5: an empty ABI yields the ok-none
no-definition answer, and a matching definition over an unparseable
binary yields the decode error. -/
theorem C5_none_iff_no_definition_witness :
    decode_event_payload (some (.i32 1)) [] "transfer" = Except.ok none
    ∧ decode_event_payload none C5abi "transfer"
        = Except.error .xdrParseError := by
  constructor
  · exact (C5_none_iff_no_definition [] "transfer" (some (.i32 1))).1.mpr rfl
  · exact (C5_none_iff_no_definition C5abi "transfer" none).2
      { name := "transfer", fields := [{ name := "a", type := "I32" }] } rfl

/-- SDK event as seen by get_events_range's post-filter: possibly
missing ledger attribute (getattr default), plus an opaque tag
standing for the rest of the event object. -/
structure SDKEvent where
  ledger : Option Int := none
  tag : String := ""
deriving Repr, DecidableEq

/-- Post-filter predicate of get_events_range:
start_ledger <= int(getattr(event, "ledger", start_ledger)) <= end_ledger. -/
def inLedgerRange (s e : Int) (ev : SDKEvent) : Bool :=
  decide (s ≤ ev.ledger.getD s) && decide (ev.ledger.getD s ≤ e)

/-- Embedding of SorobanClient.get_events_range (stellar_client.py
lines 219-262) over the upstream SDK: an inverted range returns empty
before any RPC interaction; otherwise the fetch runs with end_ledger
when the SDK supports that argument, or is re-issued without it after
the TypeError (two invocations), and the response is post-filtered to
the inclusive ledger range.  The second component counts the
server.get_events invocations. -/
def get_events_range (supportsEnd : Bool)
    (fetchWithEnd : Int → Int → List SDKEvent)
    (fetchNoEnd : Int → List SDKEvent)
    (start_ledger end_ledger : Int) : List SDKEvent × Nat :=
  if start_ledger > end_ledger then
    ([], 0)
  else
    let events :=
      if supportsEnd then fetchWithEnd start_ledger end_ledger
      else fetchNoEnd start_ledger
    let calls := if supportsEnd then 1 else 2
    (events.filter (inLedgerRange start_ledger end_ledger), calls)

/-- Claim C10: get_events_range never returns an event whose ledger
lies outside [start, end]; an inverted range returns empty with zero
RPC calls; an SDK without end_ledger support is re-queried without it
and the response post-filtered, and an SDK with support is queried
once, also post-filtered. -/
theorem C10_inclusive_range_filtering :
    ∀ (supportsEnd : Bool) (fetchWithEnd : Int → Int → List SDKEvent)
      (fetchNoEnd : Int → List SDKEvent) (s e : Int),
      (s > e → get_events_range supportsEnd fetchWithEnd fetchNoEnd s e = ([], 0))
      ∧ (∀ ev ∈ (get_events_range supportsEnd fetchWithEnd fetchNoEnd s e).1,
          ∀ l, ev.ledger = some l → s ≤ l ∧ l ≤ e)
      ∧ (s ≤ e → supportsEnd = false →
          get_events_range supportsEnd fetchWithEnd fetchNoEnd s e
            = ((fetchNoEnd s).filter (inLedgerRange s e), 2))
      ∧ (s ≤ e → supportsEnd = true →
          get_events_range supportsEnd fetchWithEnd fetchNoEnd s e
            = ((fetchWithEnd s e).filter (inLedgerRange s e), 1)) := by
  intro supportsEnd fetchWithEnd fetchNoEnd s e
  refine ⟨?_, ?_, ?_, ?_⟩
  · intro h
    simp [get_events_range, h]
  · intro ev hev l hl
    by_cases h : s > e
    · simp [get_events_range, h] at hev
    · simp only [get_events_range, if_neg h] at hev
      have hcond := (List.mem_filter.mp hev).2
      simp only [inLedgerRange, hl, Option.getD_some, Bool.and_eq_true,
        decide_eq_true_eq] at hcond
      exact hcond
  · intro hle hsup
    have h : ¬ (s > e) := by omega
    simp [get_events_range, h, hsup]
  · intro hle hsup
    have h : ¬ (s > e) := by omega
    simp [get_events_range, h, hsup]

/-- Concrete instantiation of C10: an inverted range [5, 3] yields no
events and no calls, and the no-end-ledger fallback on [1, 2] filters
a ledger-5 event out of the re-issued fetch. -/
theorem C10_inclusive_range_filtering_witness :
    get_events_range true (fun _ _ => []) (fun _ => []) 5 3 = ([], 0)
    ∧ get_events_range false (fun _ _ => [])
        (fun _ => [{ ledger := some 1 }, { ledger := some 5 }]) 1 2
      = ([{ ledger := some 1 }], 2) := by
  constructor
  · exact (C10_inclusive_range_filtering true (fun _ _ => []) (fun _ => []) 5 3).1
      (by norm_num)
  · have h := (C10_inclusive_range_filtering false (fun _ _ => [])
      (fun _ => [{ ledger := some 1 }, { ledger := some 5 }]) 1 2).2.2.1
      (by norm_num) rfl
    rw [h]
    decide
